import Mathlib

/-!
Verification of the movie-recommendation scorer in
`recommendation_project/movie_recommender.py` (class `MovieRecommender`).

The Python class holds two dictionaries: `self.movies` (the fixed catalog)
and `self.user_ratings` (the mutable rating store).  Python dictionaries
preserve insertion order, so both are embedded as association lists; the
catalog's iteration order is its list order.  Machine integers are embedded
as `Int` (Python integers are unbounded, so no wrap-around is modelled).
-/

namespace MovieRecommender

/-- A catalog entry, mirroring the per-movie dictionaries in
`MovieRecommender.__init__`: title, genre, release year and tag list. -/
structure Movie where
  title : String
  genre : String
  year : Int
  tags : List String
deriving DecidableEq, Repr

/-- The hard-coded 8-movie catalog `self.movies` from `__init__`, in its
insertion (iteration) order. -/
def defaultMovies : List (Nat × Movie) :=
  [ (1, ⟨"The Matrix", "Sci-Fi", 1999, ["action", "philosophy"]⟩),
    (2, ⟨"Inception", "Sci-Fi", 2010, ["mind-bending", "action"]⟩),
    (3, ⟨"The Shawshank Redemption", "Drama", 1994, ["hope", "friendship"]⟩),
    (4, ⟨"Pulp Fiction", "Crime", 1994, ["non-linear", "crime"]⟩),
    (5, ⟨"The Dark Knight", "Action", 2008, ["superhero", "crime"]⟩),
    (6, ⟨"Forrest Gump", "Drama", 1994, ["inspirational", "historical"]⟩),
    (7, ⟨"Interstellar", "Sci-Fi", 2014, ["space", "family"]⟩),
    (8, ⟨"Parasite", "Thriller", 2019, ["social", "dark-comedy"]⟩) ]

/-- The three-movie catalog used by the specification's worked example
(section 8 of the spec); titles are irrelevant there and left empty. -/
def specCatalog3 : List (Nat × Movie) :=
  [ (1, ⟨"", "Sci-Fi", 1999, ["action", "philosophy"]⟩),
    (2, ⟨"", "Sci-Fi", 2010, ["action"]⟩),
    (3, ⟨"", "Drama", 1994, []⟩) ]

/-- Body of `calculate_similarity` on two already-looked-up movies: a
running `score` starts at 0, gains 3 on equal genres, 2 per common tag
(`set(movie1.tags) & set(movie2.tags)` is embedded as intersection of the
`toFinset`s of the tag lists), and 1 when the years differ by at most 5. -/
def similarity (m1 m2 : Movie) : Nat :=
  let score : Nat := 0
  let score := if m1.genre = m2.genre then score + 3 else score
  let commonTags := m1.tags.toFinset ∩ m2.tags.toFinset
  let score := score + commonTags.card * 2
  let score := if (m1.year - m2.year).natAbs ≤ 5 then score + 1 else score
  score

/-- `calculate_similarity(movie1_id, movie2_id)`: the Python method first
evaluates `self.movies[movie1_id]` and `self.movies[movie2_id]`, which
raises `KeyError` on an unknown id; that raising path is embedded as
`none`. -/
def calcSim (movies : List (Nat × Movie)) (i j : Nat) : Option Nat :=
  match movies.lookup i, movies.lookup j with
  | some m1, some m2 => some (similarity m1 m2)
  | _, _ => none

/-- The inner loop of `get_recommendations`: for one candidate movie,
`total_score += calculate_similarity(movie_id, rated_id) * rating`,
accumulated over `self.user_ratings.items()` in insertion order.
Python would raise `KeyError` if a rated id were absent from the catalog;
`rate_movie` never records such an id, and every theorem that quantifies
over rating stores restricts to stores whose keys are catalog keys
(`WFRatings`), under which the `getD 0` default is never taken. -/
def totalScore (movies : List (Nat × Movie)) (ratings : List (Nat × Int))
    (movieId : Nat) : Int :=
  ratings.foldl (fun acc q => acc + ((calcSim movies movieId q.1).getD 0 : Int) * q.2) 0

/-- The comparison performed by `sorted(scores.items(), key=lambda x: x[1],
reverse=True)`: an element sorts no later than another when its score is at
least the other's.  Python's sort is stable, and `List.insertionSort` with
this relation is stable in the same sense. -/
def scoreGe (a b : Nat × Int) : Prop := b.2 ≤ a.2

instance : DecidableRel scoreGe := fun a b => inferInstanceAs (Decidable (b.2 ≤ a.2))

instance : IsTotal (Nat × Int) scoreGe := ⟨fun a b => le_total b.2 a.2⟩

instance : IsTrans (Nat × Int) scoreGe :=
  ⟨fun _ _ _ h1 h2 => le_trans h2 h1⟩

/-- The ordering the specification describes for the result list: strictly
higher total score first, and on equal scores the earlier catalog position
first.  For the catalogs in this file the catalog position order is the
ascending order of the movie ids, so ties are broken by ascending id. -/
def specLe (a b : Nat × Int) : Prop := b.2 < a.2 ∨ (a.2 = b.2 ∧ a.1 ≤ b.1)

instance : DecidableRel specLe := fun a b =>
  inferInstanceAs (Decidable (b.2 < a.2 ∨ (a.2 = b.2 ∧ a.1 ≤ b.1)))

instance : IsTotal (Nat × Int) specLe := by
  constructor
  intro a b
  simp only [specLe]
  omega

instance : IsTrans (Nat × Int) specLe := by
  constructor
  intro a b c h1 h2
  simp only [specLe] at *
  omega

instance : IsAntisymm (Nat × Int) specLe := by
  constructor
  intro a b h1 h2
  simp only [specLe] at h1 h2
  have : a.1 = b.1 ∧ a.2 = b.2 := by omega
  obtain ⟨x1, x2⟩ := a
  obtain ⟨y1, y2⟩ := b
  simp_all

/-- `get_recommendations(num_recommendations)`: returns `none` for the
early-return path that prints "No ratings yet!" and yields no scored list
(the distinct `NoRatings` signal), and otherwise `some` of the scored,
sorted, truncated list.  The `scores` dictionary is built by iterating
`self.movies.keys()` in catalog order, skipping rated ids; since catalog
keys are distinct, each insertion into `scores` appends a fresh key, which
the fold models by list append.  The default `num_recommendations` in
Python is 3; the embedding takes it as the explicit argument `n`. -/
def getRecommendations (movies : List (Nat × Movie)) (ratings : List (Nat × Int))
    (n : Nat) : Option (List (Nat × Int)) :=
  if ratings.isEmpty then none
  else
    let scores := movies.foldl
      (fun acc p =>
        if ratings.any (fun q => q.1 == p.1) then acc
        else acc ++ [(p.1, totalScore movies ratings p.1)]) []
    some ((scores.insertionSort scoreGe).take n)

/-- Modelled from the spec's words for `recommend` (section 4.1): score
every catalog item not present in the ratings, sort by total score
descending with ties in catalog iteration order (the total order `specLe`),
and truncate to the first `n`. -/
def recommendSpec (movies : List (Nat × Movie)) (ratings : List (Nat × Int))
    (n : Nat) : List (Nat × Int) :=
  let cands := (movies.filter fun p => !(ratings.any fun q => q.1 == p.1)).map
    fun p => (p.1, totalScore movies ratings p.1)
  ((cands.insertionSort specLe).take n)

/-- Well-formedness of a rating store with respect to a catalog: every
rated id is a catalog key.  `rate_movie` only ever records catalog keys, so
every reachable `self.user_ratings` satisfies this. -/
def WFRatings (movies : List (Nat × Movie)) (ratings : List (Nat × Int)) : Prop :=
  ∀ q ∈ ratings, (movies.lookup q.1).isSome

instance (movies : List (Nat × Movie)) (ratings : List (Nat × Int)) :
    Decidable (WFRatings movies ratings) :=
  inferInstanceAs (Decidable (∀ q ∈ ratings, _))

/-- The mutable state of a `MovieRecommender` instance: the `self.movies`
and `self.user_ratings` dictionaries. -/
structure RecState where
  movies : List (Nat × Movie)
  userRatings : List (Nat × Int)
deriving DecidableEq, Repr

/-- The state right after `__init__`: the default catalog and an empty
rating store. -/
def initState : RecState := ⟨defaultMovies, []⟩

/-- Python dictionary assignment `d[k] = v` on an association list: when
the key is present its entry is updated in place (position preserved),
otherwise the new pair is appended at the end. -/
def dictInsert (l : List (Nat × Int)) (k : Nat) (v : Int) : List (Nat × Int) :=
  if l.any fun p => p.1 == k then
    l.map fun p => if p.1 = k then (k, v) else p
  else l ++ [(k, v)]

/-- `rate_movie(movie_id, rating)`: when the id is a catalog key the rating
is stored unconditionally (no range check happens inside this method) and
`True` is returned; otherwise "Movie not found" is reported and `False`
is returned with the state unchanged. -/
def rateMovie (s : RecState) (movieId : Nat) (rating : Int) : Bool × RecState :=
  if (s.movies.lookup movieId).isSome then
    (true, { s with userRatings := dictInsert s.userRatings movieId rating })
  else
    (false, s)

/-- Outcome of the rating interaction as the CLI reports it. -/
inductive RateOutcome where
  | ok
  | itemNotFound
  | invalidRating
deriving DecidableEq, Repr

/-- The menu-choice-2 handler in `main`: it checks `1 <= rating <= 5`
before calling `rate_movie`, printing "Rating must be between 1 and 5"
(and leaving the store untouched) when the check fails.  The [1,5] range
validation therefore lives in this caller, not in `rate_movie`. -/
def cliRate (s : RecState) (movieId : Nat) (rating : Int) : RateOutcome × RecState :=
  if 1 ≤ rating ∧ rating ≤ 5 then
    match rateMovie s movieId rating with
    | (true, s2) => (.ok, s2)
    | (false, s2) => (.itemNotFound, s2)
  else
    (.invalidRating, s)

/-- One update of the `genre_counts` defaultdict:
`genre_counts[genre] += 1`.  A present key is incremented in place
(first-seen position preserved); a fresh key is appended with count 1. -/
def bumpGenre (acc : List (String × Nat)) (g : String) : List (String × Nat) :=
  if acc.any fun p => p.1 == g then
    acc.map fun p => if p.1 = g then (p.1, p.2 + 1) else p
  else acc ++ [(g, 1)]

/-- One iteration of the grouping loop of `show_user_profile`: for a
rating valued at least 4, increment the count of the rated movie's genre.
Python's `self.movies[movie_id]` raises `KeyError` on an unknown id; the
skip branch for a failed lookup is unreachable under the `WFRatings`
hypothesis carried by every theorem about the profile summary. -/
def profileStep (movies : List (Nat × Movie)) (acc : List (String × Nat))
    (q : Nat × Int) : List (String × Nat) :=
  if (4 : Int) ≤ q.2 then
    match movies.lookup q.1 with
    | some m => bumpGenre acc m.genre
    | none => acc
  else acc

/-- The grouping loop of `show_user_profile`: iterate the rating store in
insertion order, counting genres of movies whose rating is at least 4. -/
def genreCounts (movies : List (Nat × Movie)) (ratings : List (Nat × Int)) :
    List (String × Nat) :=
  ratings.foldl (profileStep movies) []

/-- Python's `max(items, key=lambda x: x[1])` on a non-empty list: scan
left to right keeping the current best and replace it only on a strictly
greater key, so the first maximal element wins.  Returns `none` on the
empty list (where Python's `max` would raise, a case the source guards
with `if genre_counts:`). -/
def pickMax (l : List (String × Nat)) : Option (String × Nat) :=
  match l with
  | [] => none
  | x :: xs => some (xs.foldl (fun best p => if best.2 < p.2 then p else best) x)

/-- The favorite-genre computation at the end of `show_user_profile`:
`some favorite_genre` when `genre_counts` is non-empty (the "You seem to
enjoy ... movies!" line), `none` when no rating reached the threshold
(no such line is printed - the distinct "no favorite" signal). -/
def profileSummary (movies : List (Nat × Movie)) (ratings : List (Nat × Int)) :
    Option String :=
  (pickMax (genreCounts movies ratings)).map (fun p => p.1)

/-- `calculate_similarity` as a state transformer: the method reads
`self.movies` only and assigns to no attribute, so the state component of
the embedding is returned unchanged. -/
def calculateSimilarityS (s : RecState) (i j : Nat) : Option Nat × RecState :=
  (calcSim s.movies i j, s)

/-- `get_recommendations` as a state transformer: the method reads
`self.movies` and `self.user_ratings`, builds only the local `scores`
dictionary, and assigns to no attribute, so the state component of the
embedding is returned unchanged. -/
def getRecommendationsS (s : RecState) (n : Nat) :
    Option (List (Nat × Int)) × RecState :=
  (getRecommendations s.movies s.userRatings n, s)

/-! ### Theorems -/

/-- Helper: the sequential score accumulation of `calculate_similarity`
collapses to a three-summand formula. -/
theorem similarity_eq (m1 m2 : Movie) :
    similarity m1 m2 =
      (if m1.genre = m2.genre then 3 else 0)
        + 2 * (m1.tags.toFinset ∩ m2.tags.toFinset).card
        + (if (m1.year - m2.year).natAbs ≤ 5 then 1 else 0) := by
  simp only [similarity]
  split_ifs <;> omega

/-- C1: for every pair of items, `similarity(A,B)` is the sum of 3 if the
genres (category labels) coincide, plus 2 times the cardinality of the
intersection of the two tag sets, plus 1 if the release years differ by at
most 5.  Stated for all `Movie` values, which covers every pair of catalog
items. -/
theorem similarity_weighted_sum (m1 m2 : Movie) :
    similarity m1 m2 =
      (if m1.genre = m2.genre then 3 else 0)
        + 2 * (m1.tags.toFinset ∩ m2.tags.toFinset).card
        + (if (m1.year - m2.year).natAbs ≤ 5 then 1 else 0) :=
  similarity_eq m1 m2

/-- C8: similarity is symmetric: `similarity(A,B) = similarity(B,A)` for
every pair of items. -/
theorem similarity_symm (m1 m2 : Movie) :
    similarity m1 m2 = similarity m2 m1 := by
  rw [similarity_eq, similarity_eq, Finset.inter_comm]
  have hy : (m1.year - m2.year).natAbs = (m2.year - m1.year).natAbs := by omega
  rw [hy]
  by_cases h : m1.genre = m2.genre
  · rw [if_pos h, if_pos h.symm]
  · rw [if_neg h, if_neg (show ¬m2.genre = m1.genre from fun hh => h hh.symm)]

/-- C9: an item's similarity to itself is maximal:
`similarity(A,B) ≤ similarity(A,A)` for all items A and B. -/
theorem similarity_self_max (m1 m2 : Movie) :
    similarity m1 m2 ≤ similarity m1 m1 := by
  rw [similarity_eq, similarity_eq, Finset.inter_self]
  have hcard : (m1.tags.toFinset ∩ m2.tags.toFinset).card ≤ m1.tags.toFinset.card :=
    Finset.card_le_card Finset.inter_subset_left
  split_ifs <;> first | omega | simp_all

/-- C3 counterexample: in the specification's three-item worked example the
similarity of items 3 and 1 is not 0 - the years 1994 and 1999 differ by
exactly 5, which earns the recency bonus - so the example's claimed values
are wrong on the code. -/
theorem spec_example_counterexample :
    calcSim specCatalog3 3 1 ≠ some 0 ∧
    getRecommendations specCatalog3 [(1, 5)] 2 ≠ some [(2, 25), (3, 0)] := by
  constructor <;> decide

/-- C3 amended: on the worked example's catalog, `similarity(2,1) = 5`,
`similarity(3,1) = 1` (the exactly-5-year gap earns the recency bonus of
1), and `recommend({1:5}, 2)` returns `[(2, 25), (3, 5)]` in that order. -/
theorem spec_example_amended :
    calcSim specCatalog3 2 1 = some 5 ∧
    calcSim specCatalog3 3 1 = some 1 ∧
    getRecommendations specCatalog3 [(1, 5)] 2 = some [(2, 25), (3, 5)] := by
  refine ⟨by decide, by decide, by decide⟩

/-- Helper: updating a present key in place leaves it findable with the
new value. -/
theorem lookup_map_update (k : Nat) (v : Int) :
    ∀ l : List (Nat × Int), l.any (fun p => p.1 == k) = true →
      (l.map fun p => if p.1 = k then (k, v) else p).lookup k = some v := by
  intro l
  induction l with
  | nil => intro h; simp at h
  | cons p t ih =>
    obtain ⟨a, b⟩ := p
    intro h
    by_cases hp : a = k
    · subst hp
      rw [List.map_cons, if_pos rfl]
      simp [List.lookup]
    · have hk : (k == a) = false := by simp [Ne.symm hp]
      simp only [List.any_cons, Bool.or_eq_true] at h
      rcases h with h1 | h2
      · exact absurd (by simpa using h1) hp
      · rw [List.map_cons, if_neg hp]
        simp [List.lookup, hk, ih h2]

/-- Helper: appending a fresh key makes it findable with the new value. -/
theorem lookup_append_new (k : Nat) (v : Int) :
    ∀ l : List (Nat × Int), l.any (fun p => p.1 == k) = false →
      (l ++ [(k, v)]).lookup k = some v := by
  intro l
  induction l with
  | nil => intro _; simp [List.lookup]
  | cons p t ih =>
    obtain ⟨a, b⟩ := p
    intro h
    simp only [List.any_cons, Bool.or_eq_false_iff] at h
    have hk : (k == a) = false := by
      have : ¬(a = k) := by simpa using h.1
      simp [Ne.symm this]
    simp [List.cons_append, List.lookup, hk, ih h.2]

/-- Helper: `d[k] = v` on a Python dictionary makes `d[k]` return `v`,
whether or not the key was present before. -/
theorem dictInsert_lookup (l : List (Nat × Int)) (k : Nat) (v : Int) :
    (dictInsert l k v).lookup k = some v := by
  unfold dictInsert
  split
  · apply lookup_map_update
    assumption
  · rename_i h
    simp only [Bool.not_eq_true] at h
    exact lookup_append_new k v l h

/-- C2 counterexample: `rate_movie` performs no range validation, so
rating the valid id 1 with the out-of-range value 6 on a fresh recommender
succeeds and records the rating, instead of failing with `InvalidRating`
and leaving the rating store unchanged as the claim requires. -/
theorem rate_movie_validation_counterexample :
    (rateMovie initState 1 6).1 = true ∧
    (rateMovie initState 1 6).2.userRatings = [(1, 6)] ∧
    (rateMovie initState 1 6).2.userRatings ≠ initState.userRatings := by
  refine ⟨by decide, by decide, by decide⟩

/-- C2 amended: `rate_movie` fails (returns `False`, store unchanged)
exactly when the id is not a catalog key; for a catalog key it succeeds
and records the value - any integer, no range check - overwriting a prior
rating for that id.  The [1,5] validation is performed by the CLI caller
before `rate_movie` is invoked: the caller rejects an out-of-range value
with the store unchanged and without calling `rate_movie`, and for an
in-range value an unknown id fails as item-not-found. -/
theorem rate_movie_amended (s : RecState) (movieId : Nat) (rating : Int) :
    ((s.movies.lookup movieId).isSome = false →
        rateMovie s movieId rating = (false, s)) ∧
    ((s.movies.lookup movieId).isSome = true →
        (rateMovie s movieId rating).1 = true ∧
        (rateMovie s movieId rating).2.movies = s.movies ∧
        (rateMovie s movieId rating).2.userRatings
          = dictInsert s.userRatings movieId rating ∧
        (rateMovie s movieId rating).2.userRatings.lookup movieId = some rating) ∧
    ((rating < 1 ∨ 5 < rating) → cliRate s movieId rating = (.invalidRating, s)) ∧
    (1 ≤ rating → rating ≤ 5 → (s.movies.lookup movieId).isSome = false →
        cliRate s movieId rating = (.itemNotFound, s)) := by
  refine ⟨?_, ?_, ?_, ?_⟩
  · intro h
    simp [rateMovie, h]
  · intro h
    simp [rateMovie, h, dictInsert_lookup]
  · intro h
    simp only [cliRate]
    rw [if_neg (by omega)]
  · intro h1 h2 h3
    simp only [cliRate]
    rw [if_pos ⟨h1, h2⟩]
    simp [rateMovie, h3]

/-- C2 witness: on a fresh recommender, rating the unknown id 99 fails
with the store unchanged, and the CLI rejects the out-of-range value 0 for
the valid id 1 with the store unchanged. -/
theorem rate_movie_amended_witness :
    rateMovie initState 99 3 = (false, initState) ∧
    cliRate initState 1 0 = (.invalidRating, initState) :=
  ⟨(rate_movie_amended initState 99 3).1 (by decide),
   (rate_movie_amended initState 1 0).2.2.1 (Or.inl (by decide))⟩

/-- C4: with an empty rating store, `get_recommendations` takes the
early-return path that signals "no recommendations" (embedded as `none`,
distinct from every `some` list of scored items) before any candidate
scoring happens, for every catalog and every requested count. -/
theorem recommendations_empty_ratings (movies : List (Nat × Movie)) (n : Nat) :
    getRecommendations movies [] n = none := rfl

/-- C10: `calculate_similarity` and `get_recommendations` are read-only on
the store: after either call the catalog and the rating store are exactly
what they were before. -/
theorem scorer_read_only (s : RecState) (i j n : Nat) :
    (calculateSimilarityS s i j).2.movies = s.movies ∧
    (calculateSimilarityS s i j).2.userRatings = s.userRatings ∧
    (getRecommendationsS s n).2.movies = s.movies ∧
    (getRecommendationsS s n).2.userRatings = s.userRatings :=
  ⟨rfl, rfl, rfl, rfl⟩

/-- Helper: inserting an element whose id is smaller than every id in a
score-sorted list keeps the list sorted for the spec order `specLe`
(score descending, ties by ascending id).  This is the stability argument:
the stable sort puts an earlier catalog entry before every equal-score
later entry. -/
theorem orderedInsert_sorted_specLe (a : Nat × Int) :
    ∀ l : List (Nat × Int), l.Sorted scoreGe → l.Sorted specLe →
      (∀ x ∈ l, a.1 < x.1) → (l.orderedInsert scoreGe a).Sorted specLe := by
  intro l
  induction l with
  | nil =>
    intro _ _ _
    simp only [List.orderedInsert]
    exact List.sorted_singleton a
  | cons b t ih =>
    intro hs hp ha
    simp only [List.orderedInsert]
    by_cases hab : scoreGe a b
    · rw [if_pos hab]
      rw [List.sorted_cons]
      refine ⟨?_, hp⟩
      intro x hx
      have hxle : x.2 ≤ a.2 := by
        rcases List.mem_cons.mp hx with rfl | hxt
        · exact hab
        · exact le_trans (List.rel_of_sorted_cons hs x hxt) hab
      have hid : a.1 < x.1 := ha x hx
      rcases lt_or_eq_of_le hxle with hlt | heq
      · exact Or.inl hlt
      · exact Or.inr ⟨heq.symm, le_of_lt hid⟩
    · rw [if_neg hab]
      rw [List.sorted_cons]
      constructor
      · intro x hx
        rcases (List.mem_orderedInsert scoreGe).mp hx with rfl | hxt
        · exact Or.inl (not_le.mp hab)
        · exact List.rel_of_sorted_cons hp x hxt
      · exact ih hs.of_cons hp.of_cons fun x hx => ha x (List.mem_cons_of_mem b hx)

/-- Helper: on a list whose ids are strictly increasing (the catalog
iteration order of this repository's catalogs), the stable descending
score sort is sorted for the spec order `specLe`. -/
theorem insertionSort_scoreGe_sorted_specLe :
    ∀ l : List (Nat × Int), l.Pairwise (fun a b => a.1 < b.1) →
      (l.insertionSort scoreGe).Sorted specLe := by
  intro l
  induction l with
  | nil =>
    intro _
    simp [List.insertionSort, List.sorted_nil]
  | cons x t ih =>
    intro h
    have hpc := List.pairwise_cons.mp h
    rw [List.insertionSort]
    apply orderedInsert_sorted_specLe
    · exact List.sorted_insertionSort scoreGe t
    · exact ih hpc.2
    · intro y hy
      exact hpc.1 y ((List.perm_insertionSort scoreGe t).mem_iff.mp hy)

/-- Helper: on a list with strictly increasing ids, the stable descending
score sort coincides with sorting by the spec's total order. -/
theorem insertionSort_scoreGe_eq_specLe (l : List (Nat × Int))
    (h : l.Pairwise fun a b => a.1 < b.1) :
    l.insertionSort scoreGe = l.insertionSort specLe :=
  List.eq_of_perm_of_sorted
    ((List.perm_insertionSort scoreGe l).trans (List.perm_insertionSort specLe l).symm)
    (insertionSort_scoreGe_sorted_specLe l h)
    (List.sorted_insertionSort specLe l)

/-- Helper: the scores dictionary built by the candidate loop of
`get_recommendations` equals the filtered catalog mapped to total
scores. -/
theorem scores_foldl_eq (movies : List (Nat × Movie)) (ratings : List (Nat × Int)) :
    ∀ (l : List (Nat × Movie)) (init : List (Nat × Int)),
      l.foldl (fun acc p =>
          if ratings.any (fun q => q.1 == p.1) then acc
          else acc ++ [(p.1, totalScore movies ratings p.1)]) init
        = init ++ (l.filter fun p => !(ratings.any fun q => q.1 == p.1)).map
            (fun p => (p.1, totalScore movies ratings p.1)) := by
  intro l
  induction l with
  | nil => intro init; simp
  | cons p t ih =>
    intro init
    rw [List.foldl_cons, List.filter_cons]
    by_cases hp : (ratings.any fun q => q.1 == p.1) = true
    · rw [if_pos hp]
      simp only [hp, Bool.not_true, Bool.false_eq_true, if_false]
      exact ih init
    · have hp2 : (ratings.any fun q => q.1 == p.1) = false := by
        rw [← Bool.not_eq_true]
        exact hp
      rw [if_neg hp, ih]
      simp [hp2, List.append_assoc]

/-- C6: for every non-empty well-formed rating store and every requested
count, `get_recommendations` returns exactly the spec's description: the
unrated catalog items paired with their rating-weighted total similarity
scores, ordered by score descending with ties in catalog iteration order,
truncated to the first `n`; the result length is `n` capped at the number
of unrated items. -/
theorem recommendations_spec (ratings : List (Nat × Int)) (n : Nat)
    (hne : ratings ≠ []) (hwf : WFRatings defaultMovies ratings) :
    getRecommendations defaultMovies ratings n
        = some (recommendSpec defaultMovies ratings n) ∧
    (recommendSpec defaultMovies ratings n).length
        = min n ((defaultMovies.filter fun p =>
            !(ratings.any fun q => q.1 == p.1)).length) := by
  have hemp : ratings.isEmpty = false := by
    cases ratings with
    | nil => exact absurd rfl hne
    | cons a t => rfl
  have hpw : (defaultMovies.filter fun p =>
      !(ratings.any fun q => q.1 == p.1)).Pairwise (fun a b => a.1 < b.1) :=
    List.Pairwise.filter _ (by decide)
  have hpwm : ((defaultMovies.filter fun p => !(ratings.any fun q => q.1 == p.1)).map
      fun p => (p.1, totalScore defaultMovies ratings p.1)).Pairwise
        (fun a b : Nat × Int => a.1 < b.1) := by
    rw [List.pairwise_map]
    exact hpw
  constructor
  · simp only [getRecommendations, recommendSpec, hemp, Bool.false_eq_true, if_false]
    rw [scores_foldl_eq, List.nil_append, insertionSort_scoreGe_eq_specLe _ hpwm]
  · simp only [recommendSpec]
    rw [List.length_take, List.length_insertionSort, List.length_map]

/-- C6 witness: the characterization instantiated at the store that rates
movie 1 with 5 stars and the default count 3. -/
theorem recommendations_spec_witness :
    getRecommendations defaultMovies [(1, 5)] 3
        = some (recommendSpec defaultMovies [(1, 5)] 3) ∧
    (recommendSpec defaultMovies [(1, 5)] 3).length
        = min 3 ((defaultMovies.filter fun p =>
            !(([(1, 5)] : List (Nat × Int)).any fun q => q.1 == p.1)).length) :=
  recommendations_spec [(1, 5)] 3 (by decide) (by decide)

/-- C5: no item id that occurs as a key of the rating store ever appears
in the list returned by `get_recommendations`: every returned pair comes
from a catalog item that the candidate loop kept, and the loop keeps
exactly the unrated items. -/
theorem recommendations_exclude_rated (ratings : List (Nat × Int)) (n : Nat)
    (out : List (Nat × Int)) (hwf : WFRatings defaultMovies ratings)
    (hout : getRecommendations defaultMovies ratings n = some out) :
    ∀ p ∈ out, ∀ q ∈ ratings, p.1 ≠ q.1 := by
  intro p hp q hq
  have hemp : ratings.isEmpty = false := by
    cases ratings with
    | nil => exact absurd hq (List.not_mem_nil q)
    | cons a t => rfl
  simp only [getRecommendations, hemp, Bool.false_eq_true, if_false,
    Option.some.injEq] at hout
  rw [scores_foldl_eq, List.nil_append] at hout
  subst hout
  have hp1 := List.take_subset n _ hp
  have hp2 := (List.perm_insertionSort scoreGe _).mem_iff.mp hp1
  obtain ⟨m, hm, hme⟩ := List.mem_map.mp hp2
  have hf : (ratings.any fun r => r.1 == m.1) = false := by
    simpa using List.of_mem_filter hm
  have hqm : ¬(q.1 == m.1) = true := List.any_eq_false.mp hf q hq
  have hpm : p.1 = m.1 := by rw [← hme]
  intro hcon
  exact hqm (beq_iff_eq.mpr (hcon.symm.trans hpm))

/-- C5 witness: with movie 1 rated, the top recommendation (movie 2) is
not the rated movie 1. -/
theorem recommendations_exclude_rated_witness : (2 : Nat) ≠ 1 :=
  recommendations_exclude_rated [(1, 5)] 3 [(2, 25), (7, 15), (3, 5)]
    (by decide) (by decide) (2, 25) (by decide) (1, 5) (by decide)

/-- Helper: one genre bump never produces an empty count list. -/
theorem bumpGenre_ne_nil (acc : List (String × Nat)) (g : String) :
    bumpGenre acc g ≠ [] := by
  unfold bumpGenre
  split
  · rename_i h
    intro hc
    rw [List.map_eq_nil_iff] at hc
    subst hc
    simp at h
  · simp

/-- Helper: the grouping fold never empties a non-empty accumulator. -/
theorem foldl_profileStep_ne_nil (movies : List (Nat × Movie)) :
    ∀ (l : List (Nat × Int)) (acc : List (String × Nat)), acc ≠ [] →
      l.foldl (profileStep movies) acc ≠ [] := by
  intro l
  induction l with
  | nil =>
    intro acc h
    simpa using h
  | cons a t ih =>
    intro acc h
    rw [List.foldl_cons]
    apply ih
    unfold profileStep
    split
    · split
      · exact bumpGenre_ne_nil _ _
      · exact h
    · exact h

/-- Helper: a rating of at least 4 for a catalog movie makes the genre
count list non-empty. -/
theorem foldl_profileStep_triggered (movies : List (Nat × Movie)) :
    ∀ (l : List (Nat × Int)) (acc : List (String × Nat)) (q : Nat × Int),
      q ∈ l → (4 : Int) ≤ q.2 → (movies.lookup q.1).isSome →
      l.foldl (profileStep movies) acc ≠ [] := by
  intro l
  induction l with
  | nil =>
    intro acc q hq
    exact absurd hq (List.not_mem_nil q)
  | cons a t ih =>
    intro acc q hq h4 hk
    rw [List.foldl_cons]
    rcases List.mem_cons.mp hq with rfl | hmem
    · apply foldl_profileStep_ne_nil
      unfold profileStep
      rw [if_pos h4]
      obtain ⟨m, hm⟩ := Option.isSome_iff_exists.mp hk
      rw [hm]
      exact bumpGenre_ne_nil _ _
    · exact ih _ q hmem h4 hk

/-- Helper: with every rating below the threshold the grouping fold is the
identity. -/
theorem foldl_profileStep_all_low (movies : List (Nat × Movie)) :
    ∀ (l : List (Nat × Int)) (acc : List (String × Nat)),
      (∀ q ∈ l, q.2 < 4) → l.foldl (profileStep movies) acc = acc := by
  intro l
  induction l with
  | nil =>
    intro acc _
    rfl
  | cons a t ih =>
    intro acc h
    rw [List.foldl_cons]
    have ha : profileStep movies acc a = acc := by
      unfold profileStep
      rw [if_neg (by have := h a (List.mem_cons_self a t); omega)]
    rw [ha]
    exact ih acc fun q hq => h q (List.mem_cons_of_mem a hq)

/-- Helper: the left-to-right scan with strict replacement (Python's
`max(items, key=...)`) returns the first element attaining the maximal
key: everything strictly before it in the list is strictly smaller, and
no element exceeds it. -/
theorem pickMax_first_max :
    ∀ (xs : List (String × Nat)) (x : String × Nat),
      ∃ l1 l2,
        x :: xs
            = l1 ++ (xs.foldl (fun best p => if best.2 < p.2 then p else best) x) :: l2 ∧
        (∀ p ∈ l1,
          p.2 < (xs.foldl (fun best p => if best.2 < p.2 then p else best) x).2) ∧
        (∀ p ∈ x :: xs,
          p.2 ≤ (xs.foldl (fun best p => if best.2 < p.2 then p else best) x).2) := by
  intro xs
  induction xs with
  | nil =>
    intro x
    exact ⟨[], [], rfl, by simp, by simp⟩
  | cons y ys ih =>
    intro x
    rw [List.foldl_cons]
    by_cases h : x.2 < y.2
    · rw [if_pos h]
      obtain ⟨l1, l2, heq, hlt, hle⟩ := ih y
      refine ⟨x :: l1, l2, ?_, ?_, ?_⟩
      · rw [List.cons_append, ← heq]
      · intro p hp
        rcases List.mem_cons.mp hp with rfl | hp1
        · exact lt_of_lt_of_le h (hle y (List.mem_cons_self y ys))
        · exact hlt p hp1
      · intro p hp
        rcases List.mem_cons.mp hp with rfl | hp1
        · exact le_of_lt (lt_of_lt_of_le h (hle y (List.mem_cons_self y ys)))
        · exact hle p hp1
    · rw [if_neg h]
      obtain ⟨l1, l2, heq, hlt, hle⟩ := ih x
      have hyx : y.2 ≤ x.2 := le_of_not_lt h
      have hxr : x.2 ≤ (ys.foldl (fun best p => if best.2 < p.2 then p else best) x).2 :=
        hle x (List.mem_cons_self x ys)
      cases l1 with
      | nil =>
        rw [List.nil_append] at heq
        injection heq with h1 h2
        refine ⟨[], y :: ys, ?_, by simp, ?_⟩
        · rw [List.nil_append, ← h1]
        · intro p hp
          rcases List.mem_cons.mp hp with rfl | hp1
          · exact hxr
          · rcases List.mem_cons.mp hp1 with rfl | hp2
            · exact le_trans hyx hxr
            · exact hle p (List.mem_cons_of_mem x hp2)
      | cons a m =>
        rw [List.cons_append] at heq
        injection heq with h1 h2
        have har : a.2 < (ys.foldl (fun best p => if best.2 < p.2 then p else best) x).2 :=
          hlt a (List.mem_cons_self a m)
        refine ⟨x :: y :: m, l2, ?_, ?_, ?_⟩
        · rw [List.cons_append, List.cons_append, ← h2]
        · intro p hp
          rcases List.mem_cons.mp hp with rfl | hp1
          · rw [show p.2 = a.2 from congrArg Prod.snd h1]
            exact har
          · rcases List.mem_cons.mp hp1 with rfl | hp2
            · exact lt_of_le_of_lt (le_trans hyx (le_of_eq (congrArg Prod.snd h1))) har
            · exact hlt p (List.mem_cons_of_mem a hp2)
        · intro p hp
          rcases List.mem_cons.mp hp with rfl | hp1
          · exact hxr
          · rcases List.mem_cons.mp hp1 with rfl | hp2
            · exact le_trans hyx hxr
            · exact hle p (List.mem_cons_of_mem x hp2)

/-- C7: the favorite-genre view returns the "no favorite" signal exactly
when no rating reaches 4; when some rating does, it returns the genre
whose entry in the genre count list attains the maximal count with every
strictly earlier (earlier-first-seen) entry strictly smaller - the
first-seen tie-break of Python's `max` over the insertion-ordered
grouping; and on ratings {1:5, 2:4, 3:2} it returns Sci-Fi. -/
theorem profile_summary_favorite (ratings : List (Nat × Int))
    (hwf : WFRatings defaultMovies ratings) :
    ((∀ q ∈ ratings, q.2 < 4) → profileSummary defaultMovies ratings = none) ∧
    ((∃ q ∈ ratings, (4 : Int) ≤ q.2) →
      ∃ g c l1 l2,
        profileSummary defaultMovies ratings = some g ∧
        genreCounts defaultMovies ratings = l1 ++ (g, c) :: l2 ∧
        (∀ p ∈ l1, p.2 < c) ∧
        (∀ p ∈ genreCounts defaultMovies ratings, p.2 ≤ c)) ∧
    profileSummary defaultMovies [(1, 5), (2, 4), (3, 2)] = some "Sci-Fi" := by
  refine ⟨?_, ?_, by decide⟩
  · intro h
    unfold profileSummary genreCounts
    rw [foldl_profileStep_all_low defaultMovies ratings [] h]
    rfl
  · rintro ⟨q, hq, h4⟩
    have hne : genreCounts defaultMovies ratings ≠ [] :=
      foldl_profileStep_triggered defaultMovies ratings [] q hq h4 (hwf q hq)
    obtain ⟨x, xs, hc⟩ : ∃ x xs, genreCounts defaultMovies ratings = x :: xs := by
      cases hg : genreCounts defaultMovies ratings with
      | nil => exact absurd hg hne
      | cons x xs => exact ⟨x, xs, rfl⟩
    obtain ⟨l1, l2, heq, hlt, hle⟩ := pickMax_first_max xs x
    refine ⟨(xs.foldl (fun best p => if best.2 < p.2 then p else best) x).1,
            (xs.foldl (fun best p => if best.2 < p.2 then p else best) x).2,
            l1, l2, ?_, ?_, hlt, ?_⟩
    · unfold profileSummary
      rw [hc]
      rfl
    · rw [hc, Prod.mk.eta]
      exact heq
    · intro p hp
      rw [hc] at hp
      exact hle p hp

/-- C7 witness: the characterization instantiated at the rating store
{1:5, 2:4, 3:2}, where two Sci-Fi ratings reach the threshold. -/
theorem profile_summary_favorite_witness :
    ((∀ q ∈ ([(1, 5), (2, 4), (3, 2)] : List (Nat × Int)), q.2 < 4) →
      profileSummary defaultMovies [(1, 5), (2, 4), (3, 2)] = none) ∧
    ((∃ q ∈ ([(1, 5), (2, 4), (3, 2)] : List (Nat × Int)), (4 : Int) ≤ q.2) →
      ∃ g c l1 l2,
        profileSummary defaultMovies [(1, 5), (2, 4), (3, 2)] = some g ∧
        genreCounts defaultMovies [(1, 5), (2, 4), (3, 2)] = l1 ++ (g, c) :: l2 ∧
        (∀ p ∈ l1, p.2 < c) ∧
        (∀ p ∈ genreCounts defaultMovies [(1, 5), (2, 4), (3, 2)], p.2 ≤ c)) ∧
    profileSummary defaultMovies [(1, 5), (2, 4), (3, 2)] = some "Sci-Fi" :=
  profile_summary_favorite [(1, 5), (2, 4), (3, 2)] (by decide)

end MovieRecommender
